import Mathlib

/-!
Verification of the constellationrelay repository (relay engine, provider
gateway retry policy, and tiered memory store) against its design spec.

The Python source is shallowly embedded: pure string manipulation is
translated to executable functions over `String`/`List Char`, the relay
turn-taking loop of `FlexibleRelay` becomes a structurally recursive
function over an explicit state record, the nondeterministic environment
(provider replies, `check_stop` polls, `datetime.now()` timestamps) is
passed in as explicit functions, and database tables become lists of row
records with the SQL statements translated to list operations.
Floating-point importance/valence tags (`0.5`, `0.7`, ...) are constant
literals that are only stored and compared, never computed with, so they
are embedded as rationals.
-/

namespace ConstellationRelay

/-! ## String helpers mirroring the Python string operations used -/

/-- Python `needle in hay` substring test, on character lists. -/
def subList (needle : List Char) : List Char → Bool
  | [] => needle.isEmpty
  | c :: cs => needle.isPrefixOf (c :: cs) || subList needle cs

/-- Python `needle in s` substring test on strings. -/
def containsSub (needle s : String) : Bool :=
  subList needle.data s.data

/-- Python `s.lower()` (ASCII-relevant part; all keywords compared are ASCII). -/
def lowerStr (s : String) : String :=
  String.mk (s.data.map Char.toLower)

/-- Python `s.strip()`: drop leading and trailing whitespace (the ASCII
whitespace relevant here; Python additionally strips `\x0b`/`\x0c`, which
never occur in the strings involved). -/
def pyStrip (s : String) : String :=
  String.mk
    (((s.data.dropWhile Char.isWhitespace).reverse.dropWhile Char.isWhitespace).reverse)

/-- Python `s.split(sep)` for a non-empty separator: non-overlapping,
left-to-right. `fuel` bounds the recursion by the remaining text length
(the separator consumes at least one character per split). -/
def pySplitAux (sep : List Char) : Nat → List Char → List Char → List String
  | _, [], acc => [String.mk acc.reverse]
  | 0, l, acc => [String.mk (acc.reverse ++ l)]
  | fuel + 1, c :: cs, acc =>
    if sep.isPrefixOf (c :: cs) then
      String.mk acc.reverse :: pySplitAux sep fuel (List.drop sep.length (c :: cs)) []
    else
      pySplitAux sep fuel cs (c :: acc)

/-- Python `s.split(sep)`. -/
def pySplit (s sep : String) : List String :=
  pySplitAux sep.data s.data.length s.data []

/-- Python `len(s.split())`: the number of maximal whitespace-free runs.
The Boolean argument tracks whether the previous character was inside a
word. -/
def countWordsAux : List Char → Bool → Nat
  | [], _ => 0
  | c :: cs, inWord =>
    if c.isWhitespace then countWordsAux cs false
    else (if inWord then 0 else 1) + countWordsAux cs true

/-- The natural-end marker emitted by an agent, `"[END CONVERSATION]"`
(relay_engine.py line 256). -/
def endMarker : String := "[END CONVERSATION]"

/-- Python `response.replace("[END CONVERSATION]", "")`: remove every
(non-overlapping, left-to-right) occurrence of the end marker. `fuel`
bounds the recursion by the remaining text length (each step consumes at
least one character). -/
def removeMarkerFuel : Nat → List Char → List Char
  | 0, l => l
  | _ + 1, [] => []
  | fuel + 1, c :: cs =>
    if endMarker.data.isPrefixOf (c :: cs) then
      removeMarkerFuel fuel (List.drop endMarker.data.length (c :: cs))
    else
      c :: removeMarkerFuel fuel cs

/-- `"[END CONVERSATION]" in response` (relay_engine.py lines 256, 348). -/
def containsMarker (s : String) : Bool :=
  containsSub endMarker s

/-- `response.replace("[END CONVERSATION]", "").strip()`
(relay_engine.py lines 257, 349): every marker occurrence removed, then
surrounding whitespace stripped. -/
def stripMarker (s : String) : String :=
  pyStrip (String.mk (removeMarkerFuel s.data.length s.data))

/-! ## Relay engine data model (relay_engine.py, class FlexibleRelay) -/

/-- One entry of an agent-local rolling history
(`{"role": ..., "content": ...}`). -/
structure ChatMessage where
  role : String
  content : String
deriving DecidableEq, Repr

/-- One transcript entry
(`{"timestamp": ..., "speaker": ..., "content": ...}`). -/
structure TranscriptEntry where
  timestamp : String
  speaker : String
  content : String
deriving DecidableEq, Repr

/-- The mutable state of a `FlexibleRelay` instance: the fields written by
`add_message`, `run_exchange`, `continue_conversation` and `load_state`.
Immutable configuration (names, types, models, delay) lives in
`RelayConfig`. -/
structure RelayState where
  ai1_system : String
  ai2_system : String
  ai1_messages : List ChatMessage
  ai2_messages : List ChatMessage
  transcript : List TranscriptEntry
  running : Bool
  naturally_ended : Bool
deriving DecidableEq, Repr

/-- Constructor-time configuration of a `FlexibleRelay` relevant to the
turn-taking behaviour (the agent display names used by `add_message`). -/
structure RelayConfig where
  ai1_name : String
  ai2_name : String
deriving DecidableEq, Repr

/-- The environment a run interacts with: the provider gateway
(`_call_ai` for each agent, which can raise), the caller-supplied
`check_stop` poll (indexed by loop iteration), and the wall clock
(`datetime.now().strftime(...)`, indexed by the number of transcript
entries written so far). Any concrete execution trace of the Python code
corresponds to some choice of these functions. -/
structure RelayEnv where
  call1 : List ChatMessage → String → Except String String
  call2 : List ChatMessage → String → Except String String
  checkStop : Nat → Bool
  time : Nat → String

/-- `FlexibleRelay.add_message` (relay_engine.py lines 199-212): append to
the transcript, then append to both agent-local histories with roles
swapped (the `role` parameter is ignored by the source as well, which
always derives roles from the speaker). -/
def addMessage (cfg : RelayConfig) (timestamp : String) (_role content speaker : String)
    (s : RelayState) : RelayState :=
  let s := { s with transcript :=
      s.transcript ++ [(⟨timestamp, speaker, content⟩ : TranscriptEntry)] }
  if speaker == cfg.ai1_name then
    { s with ai1_messages := s.ai1_messages ++ [(⟨"assistant", content⟩ : ChatMessage)],
             ai2_messages := s.ai2_messages ++ [(⟨"user", content⟩ : ChatMessage)] }
  else
    { s with ai2_messages := s.ai2_messages ++ [(⟨"assistant", content⟩ : ChatMessage)],
             ai1_messages := s.ai1_messages ++ [(⟨"user", content⟩ : ChatMessage)] }

/-- Which gateway call the loop body makes for the current speaker
(`self._call_ai(2, self.ai2_messages, self.ai2_system)` vs agent 1). -/
def callFor (env : RelayEnv) (speaker : Nat) (s : RelayState) : Except String String :=
  if speaker == 2 then env.call2 s.ai2_messages s.ai2_system
  else env.call1 s.ai1_messages s.ai1_system

/-- `speaker_name` selected in the loop body. -/
def speakerNameOf (cfg : RelayConfig) (speaker : Nat) : String :=
  if speaker == 2 then cfg.ai2_name else cfg.ai1_name

/-- `next_speaker` selected in the loop body. -/
def nextSpeakerOf (speaker : Nat) : Nat :=
  if speaker == 2 then 1 else 2

/-- The `for exchange in range(...)` loop body shared verbatim by
`run_exchange` (lines 239-282) and `continue_conversation` (lines
331-374): poll `check_stop`, call the current speaker's provider, handle
the natural-end marker, append/emit the reply, or record a System error
entry and stop on a raised provider error. `fuel` is the number of loop
iterations remaining, `i` the current iteration index. The inter-turn
`time.sleep(self.delay_seconds)` has no effect on the state and is not
modelled. Returns the final state together with the list of
`on_message(speaker, content)` emissions made. -/
def runLoop (cfg : RelayConfig) (env : RelayEnv) :
    Nat → Nat → Nat → RelayState → RelayState × List (String × String)
  | 0, _, _, s => (s, [])
  | fuel + 1, i, speaker, s =>
    if env.checkStop i then
      ({ s with running := false }, [("System", "Conversation stopped by user.")])
    else
      match callFor env speaker s with
      | Except.error e =>
        let errorMsg := "Error during conversation: " ++ e
        ({ s with transcript := s.transcript ++
            [(⟨env.time s.transcript.length, "System", errorMsg⟩ : TranscriptEntry)] },
         [("System", errorMsg)])
      | Except.ok response =>
        if containsMarker response then
          let stripped := stripMarker response
          let s1 := addMessage cfg (env.time s.transcript.length) "assistant" stripped
            (speakerNameOf cfg speaker) { s with naturally_ended := true }
          (s1, [(speakerNameOf cfg speaker, stripped),
                ("System", speakerNameOf cfg speaker ++
                  " has concluded the conversation naturally.")])
        else
          let s1 := addMessage cfg (env.time s.transcript.length) "assistant" response
            (speakerNameOf cfg speaker) s
          let r := runLoop cfg env fuel (i + 1) (nextSpeakerOf speaker) s1
          (r.1, (speakerNameOf cfg speaker, response) :: r.2)

/-- `FlexibleRelay.run_exchange` (lines 214-287): reset the histories and
transcript, seed the kickoff into agent-2's inbound history, log/emit the
System start message, then loop for `max_exchanges * 2` turns starting
with agent-2. (`_archive_conversation` only touches the memory store,
never the relay state, and is a no-op when memory is disabled.) -/
def run_exchange (cfg : RelayConfig) (env : RelayEnv) (s0 : RelayState)
    (kickoff_message : String) (max_exchanges : Nat) :
    RelayState × List (String × String) :=
  let s := { s0 with running := true, naturally_ended := false,
                     transcript := [], ai1_messages := [], ai2_messages := [] }
  let s := { s with ai2_messages :=
      s.ai2_messages ++ [(⟨"user", kickoff_message⟩ : ChatMessage)] }
  let s := { s with transcript := s.transcript ++
      [(⟨env.time 0, "System",
         "Conversation started with: " ++ kickoff_message⟩ : TranscriptEntry)] }
  let r := runLoop cfg env (max_exchanges * 2) 0 2 s
  ({ r.1 with running := false },
   ("System", "Starting conversation: " ++ kickoff_message) :: r.2)

/-- `[t for t in self.transcript if t["speaker"] not in ["System"]]`
(relay_engine.py line 329). -/
def nonSystemEntries (transcript : List TranscriptEntry) : List TranscriptEntry :=
  transcript.filter (fun t => t.speaker != "System")

/-- `FlexibleRelay.continue_conversation` (lines 316-379): continue from
the existing histories/transcript without re-seeding; the first speaker is
agent-1 when the non-System transcript entry count is even, else
agent-2. -/
def continue_conversation (cfg : RelayConfig) (env : RelayEnv) (s0 : RelayState)
    (additional_exchanges : Nat) : RelayState × List (String × String) :=
  let s := { s0 with running := true, naturally_ended := false }
  let current_speaker :=
    if (nonSystemEntries s.transcript).length % 2 == 0 then 1 else 2
  let r := runLoop cfg env (additional_exchanges * 2) 0 current_speaker s
  ({ r.1 with running := false }, ("System", "Continuing conversation...") :: r.2)

/-- The checkpoint blob produced by `FlexibleRelay.get_state`
(lines 389-404), restricted to the fields `load_state` consumes; the
source dict additionally echoes the immutable configuration
(types, names, models, delay), which `load_state` ignores. -/
structure RelaySavedState where
  ai1_messages : List ChatMessage
  ai2_messages : List ChatMessage
  transcript : List TranscriptEntry
  ai1_system : String
  ai2_system : String
  naturally_ended : Bool
deriving DecidableEq, Repr

/-- `FlexibleRelay.get_state` (lines 389-404). -/
def get_state (s : RelayState) : RelaySavedState :=
  ⟨s.ai1_messages, s.ai2_messages, s.transcript, s.ai1_system, s.ai2_system,
   s.naturally_ended⟩

/-- `FlexibleRelay.load_state` (lines 406-412). -/
def load_state (st : RelaySavedState) (s : RelayState) : RelayState :=
  { s with ai1_messages := st.ai1_messages,
           ai2_messages := st.ai2_messages,
           transcript := st.transcript,
           ai1_system := st.ai1_system,
           ai2_system := st.ai2_system,
           naturally_ended := st.naturally_ended }

/-! ## Memory extraction heuristic (memory_system.py, extract_and_store_memories) -/

/-- Keyword list of the first importance check (memory_system.py line 421). -/
def importanceKeywords : List String :=
  ["important", "remember", "key", "critical", "essential"]

/-- Keyword list of the second importance check (line 423). -/
def projectKeywords : List String := ["phoenix", "project", "goal", "plan"]

/-- Positive-valence keyword list (line 427). -/
def positiveKeywords : List String :=
  ["love", "wonderful", "amazing", "excited", "happy"]

/-- Negative-valence keyword list (line 429). -/
def negativeKeywords : List String :=
  ["concerned", "worried", "difficult", "challenging"]

/-- `any(word in content.lower() for word in words)`. -/
def containsAnyKeyword (content : String) (words : List String) : Bool :=
  words.any (fun w => containsSub w (lowerStr content))

/-- The importance computed per message (lines 420-424): two sequential
`if` statements, the second of which overwrites the first when both keyword
sets match. -/
def messageImportance (content : String) : ℚ :=
  let importance : ℚ := 5/10
  let importance :=
    if containsAnyKeyword content importanceKeywords then 8/10 else importance
  let importance :=
    if containsAnyKeyword content projectKeywords then 7/10 else importance
  importance

/-- The emotional valence computed per message (lines 426-430): an
`if`/`elif` chain, positive checked first. -/
def messageValence (content : String) : ℚ :=
  if containsAnyKeyword content positiveKeywords then 8/10
  else if containsAnyKeyword content negativeKeywords then -(3/10)
  else 0

/-- A row of the `memories` table as inserted by `remember`
(columns relevant to the extraction contract). -/
structure MemoryRow where
  content : String
  speaker : String
  memory_type : String
  importance : ℚ
  emotional_valence : ℚ
  conversation_id : String
deriving DecidableEq, Repr

/-- Python `content[:2000]` (line 433). -/
def truncate2000 (s : String) : String :=
  String.mk (s.data.take 2000)

/-- `extract_and_store_memories` (memory_system.py lines 405-443): one
`remember` insert per transcript message, with keyword-derived importance
and valence, content truncated to 2000 characters, type EPISODIC. The
trailing `update_ai_profile` calls touch a different table and are not
part of the extraction contract. -/
def extract_and_store_memories (conversation_transcript : List TranscriptEntry)
    (conversation_id : String) : List MemoryRow :=
  conversation_transcript.map (fun msg =>
    { content := truncate2000 msg.content
      speaker := msg.speaker
      memory_type := "episodic"
      importance := messageImportance msg.content
      emotional_valence := messageValence msg.content
      conversation_id := conversation_id })

/-! ## Context diary (memory_system.py, context_documents table) -/

/-- A row of the `context_documents` table (columns used by the claims;
`search_vector` and the timestamps are not modelled). -/
structure CtxRow where
  rowid : Nat
  document_id : String
  owner : String
  title : String
  content : String
  version : Nat
  is_active : Bool
deriving DecidableEq, Repr

/-- The `context_documents` table plus its SERIAL id counter. -/
structure CtxDB where
  rows : List CtxRow
  nextId : Nat
deriving DecidableEq, Repr

/-- `SELECT COALESCE(MAX(version), 0) ... WHERE document_id = d`
(memory_system.py lines 850-853). -/
def maxVersion (rows : List CtxRow) (d : String) : Nat :=
  (rows.filter (fun r => r.document_id == d)).foldl (fun m r => max m r.version) 0

/-- The INSERT of lines 859-866, subject to the schema's
`UNIQUE(document_id, version)` constraint (line 166): on conflict the
transaction raises before commit and the table is unchanged (`none`). -/
def ctxInsert (rows : List CtxRow) (nextId : Nat)
    (d owner title content : String) (version : Nat) : Option (CtxDB × Nat) :=
  if rows.any (fun r => r.document_id == d && r.version == version) then none
  else some (⟨rows ++ [⟨nextId, d, owner, title, content, version, true⟩], nextId + 1⟩,
             nextId)

/-- The row-level effect of
`UPDATE context_documents SET is_active = FALSE WHERE document_id = %s`
(memory_system.py lines 844-848). -/
def deactivateFor (d : String) (r : CtxRow) : CtxRow :=
  if r.document_id == d then { r with is_active := false } else r

/-- `store_context_document` (memory_system.py lines 830-870): with a
`document_id` it deactivates every row of that id and inserts
version `max+1`; without one it inserts version 1 under a freshly minted
timestamp id (the mint `ctx_YYYYmmdd_HHMMSS` is passed in as
`minted_id`). Returns the new row id, or `none` when the insert violates
the unique constraint and the transaction rolls back. -/
def store_context_document (title content owner : String)
    (document_id : Option String) (minted_id : String) (db : CtxDB) :
    Option (CtxDB × Nat) :=
  match document_id with
  | some d =>
    let rows := db.rows.map (deactivateFor d)
    ctxInsert rows db.nextId d owner title content (maxVersion rows d + 1)
  | none => ctxInsert db.rows db.nextId minted_id owner title content 1

/-- The table state after a `store_context_document` call, whether it
committed or rolled back. -/
def storeDB (title content owner : String) (document_id : Option String)
    (minted_id : String) (db : CtxDB) : CtxDB :=
  match store_context_document title content owner document_id minted_id db with
  | some (db', _) => db'
  | none => db

/-- `get_context_documents` (memory_system.py lines 873-905); the
`ORDER BY` clauses only affect presentation order and are not modelled
(rows are kept in table order). -/
def get_context_documents (db : CtxDB) (owner : Option String)
    (active_only : Bool) : List CtxRow :=
  db.rows.filter (fun r =>
    (match owner with
     | some o => r.owner == o
     | none => true) &&
    (!active_only || r.is_active))

/-- Does a row belong to document `x` and carry the active flag? -/
def pActive (x : String) (r : CtxRow) : Bool :=
  r.document_id == x && r.is_active

/-- The active rows of one `document_id`. -/
def activeRows (db : CtxDB) (d : String) : List CtxRow :=
  db.rows.filter (pActive d)

/-- Table invariant maintained by `store_context_document`: per
`document_id` present in the table, at most one active row, and a
version-1 row exists. -/
def CtxInv (db : CtxDB) : Prop :=
  ∀ r ∈ db.rows, (activeRows db r.document_id).length ≤ 1 ∧
    ∃ r1 ∈ db.rows, r1.document_id = r.document_id ∧ r1.version = 1

instance (db : CtxDB) : Decidable (CtxInv db) := by
  unfold CtxInv; infer_instance

/-! ## Document digestion (memory_system.py, digest_context_to_memory) -/

/-- The greedy paragraph packer of `digest_context_to_memory`
(memory_system.py lines 1001-1022): split on blank lines, strip each
paragraph, skip empty ones, pack whole paragraphs while the sum of their
(stripped) lengths stays within `chunk_size`, flush on overflow. The
tracked size does not count the `"\n\n"` joiners, exactly as in the
source. -/
def digestChunksAux (chunkSize : Nat) :
    List String → List String → Nat → List String
  | [], current, _ =>
    if current.isEmpty then [] else [String.intercalate "\n\n" current]
  | p :: ps, current, size =>
    let para := pyStrip p
    if para == "" then digestChunksAux chunkSize ps current size
    else
      let paraSize := para.length
      if size + paraSize > chunkSize && !current.isEmpty then
        String.intercalate "\n\n" current ::
          digestChunksAux chunkSize ps [para] paraSize
      else
        digestChunksAux chunkSize ps (current ++ [para]) (size + paraSize)

/-- `content.split('\n\n')` then the greedy packer. -/
def digestChunks (content : String) (chunkSize : Nat) : List String :=
  digestChunksAux chunkSize (pySplit content "\n\n") [] 0

/-- `digest_context_to_memory` (memory_system.py lines 980-1040): look up
the active version of the document, chunk its content, then for each chunk
whose stripped length is at least 50 call `store_memory(...)` — a name
that is defined nowhere in the repository (the module's insert function is
`remember`), so the first such call raises `NameError`; with no surviving
chunk (or no active document) the function returns 0. -/
def digest_context_to_memory (db : CtxDB) (document_id : String)
    (chunk_size : Nat) : Except String Nat :=
  match (db.rows.filter (fun r => r.document_id == document_id && r.is_active)).head? with
  | none => Except.ok 0
  | some doc =>
    let chunks := digestChunks doc.content chunk_size
    if chunks.any (fun c => 50 ≤ (pyStrip c).length) then
      Except.error "NameError: name 'store_memory' is not defined"
    else
      Except.ok 0

/-! ## Reference archive (memory_system.py, archive_conversation) -/

/-- A row of `reference_conversations` (columns written by
`archive_conversation`; timestamps and `search_vector` not modelled). -/
structure RefConvRow where
  conversation_id : String
  title : Option String
  participants : List String
  full_transcript : String
  message_count : Nat
  total_tokens : Nat
deriving DecidableEq, Repr

/-- A row of `reference_messages`. -/
structure RefMsgRow where
  conversation_id : String
  speaker : String
  content : String
  message_index : Nat
  timestamp : String
deriving DecidableEq, Repr

/-- The reference-archive tier. -/
structure RefDB where
  conversations : List RefConvRow
  messages : List RefMsgRow
deriving DecidableEq, Repr

/-- Python `len(s.split())`: count maximal whitespace-free words. -/
def pyWordCount (s : String) : Nat :=
  countWordsAux s.data false

/-- `f"[{timestamp}] {speaker}: {content}"` (memory_system.py line 550). -/
def formatRefEntry (msg : TranscriptEntry) : String :=
  "[" ++ msg.timestamp ++ "] " ++ msg.speaker ++ ": " ++ msg.content

/-- `archive_conversation` (memory_system.py lines 532-595): return
immediately on an empty transcript (before any store connection is
opened); otherwise upsert the `reference_conversations` row
(`ON CONFLICT ... DO UPDATE` sets only transcript, counts and
`updated_at`) and replace that id's `reference_messages` rows
(delete-then-insert with zero-based contiguous `message_index`). -/
def archive_conversation (conversation_id : String)
    (transcript : List TranscriptEntry) (participants : List String)
    (title : Option String) (db : RefDB) : RefDB :=
  if transcript.isEmpty then db
  else
    let full_transcript := String.intercalate "\n\n" (transcript.map formatRefEntry)
    let conversations :=
      if db.conversations.any (fun c => c.conversation_id == conversation_id) then
        db.conversations.map (fun c =>
          if c.conversation_id == conversation_id then
            { c with full_transcript := full_transcript,
                     message_count := transcript.length,
                     total_tokens := pyWordCount full_transcript }
          else c)
      else
        db.conversations ++
          [⟨conversation_id, title, participants, full_transcript,
            transcript.length, pyWordCount full_transcript⟩]
    let kept := db.messages.filter (fun m => m.conversation_id != conversation_id)
    let newMessages := transcript.enum.map (fun p =>
      (⟨conversation_id, p.2.speaker, p.2.content, p.1, p.2.timestamp⟩ : RefMsgRow))
    { conversations := conversations, messages := kept ++ newMessages }

/-! ## Provider gateway retry policy (ai_clients.py) -/

/-- A raised Python exception as observed by `is_rate_limit_error`:
its `str()` and its optional `status_code` attribute. -/
structure PyError where
  message : String
  status_code : Option Nat
deriving DecidableEq, Repr

/-- `is_rate_limit_error` (ai_clients.py lines 45-53). -/
def is_rate_limit_error (e : PyError) : Bool :=
  containsSub "429" e.message ||
  containsSub "RATELIMIT_EXCEEDED" e.message ||
  containsSub "quota" (lowerStr e.message) ||
  containsSub "rate limit" (lowerStr e.message) ||
  e.status_code == some 429

/-- The tenacity policy shared by `call_claude`, `call_grok` and
`call_pascal` (`stop=stop_after_attempt(5)`,
`retry=retry_if_exception(is_rate_limit_error)`, `reraise=True`):
`fuel` attempts remain (the last allowed attempt re-raises its error
whatever its class), `attempts i` is the outcome the wrapped provider call
would produce on attempt `i`. The backoff sleeps do not affect the
result. -/
def retryCallAux (attempts : Nat → Except PyError String) :
    Nat → Nat → Except PyError String
  | 0, _ => Except.error ⟨"tenacity: zero attempts configured", none⟩
  | 1, i => attempts i
  | fuel + 2, i =>
    match attempts i with
    | Except.ok r => Except.ok r
    | Except.error e =>
      if is_rate_limit_error e then retryCallAux attempts (fuel + 1) (i + 1)
      else Except.error e

/-- The decorated provider call: up to 5 attempts total. -/
def retryCall (attempts : Nat → Except PyError String) : Except PyError String :=
  retryCallAux attempts 5 0

/-! ## Concrete fixtures used by witnesses and counterexamples -/

/-- A relay configured as in `ConversationRelay` (agent-1 Claude, agent-2
Grok). -/
def cfgCG : RelayConfig := ⟨"Claude", "Grok"⟩

/-- A freshly constructed relay state (empty histories and transcript). -/
def freshState : RelayState := ⟨"sys1", "sys2", [], [], [], false, false⟩

/-- An environment whose providers always answer and that is never
stopped. -/
def envClean : RelayEnv :=
  ⟨fun _ _ => Except.ok "alpha", fun _ _ => Except.ok "beta",
   fun _ => false, fun _ => "t"⟩

/-- An environment whose `check_stop` fires before the very first turn. -/
def envStopNow : RelayEnv :=
  ⟨fun _ _ => Except.ok "alpha", fun _ _ => Except.ok "beta",
   fun _ => true, fun _ => "t"⟩

/-- An environment whose `check_stop` fires before the second turn, so a
run pauses after exactly one delivered turn. -/
def envStopAfter1 : RelayEnv :=
  ⟨fun _ _ => Except.ok "alpha", fun _ _ => Except.ok "beta",
   fun i => i == 1, fun _ => "t"⟩

/-- An environment in which agent-2's first reply carries the natural-end
marker. -/
def envMark : RelayEnv :=
  ⟨fun _ _ => Except.ok "alpha",
   fun _ _ => Except.ok "Goodbye! [END CONVERSATION]",
   fun _ => false, fun _ => "t"⟩

/-- A relay state that already holds one delivered agent-2 turn (odd
non-System transcript count). -/
def s0Odd : RelayState :=
  ⟨"sys1", "sys2", [⟨"user", "hi"⟩], [⟨"assistant", "hi"⟩],
   [⟨"t0", "Grok", "hi"⟩], false, false⟩

/-- The state of a run paused by `check_stop` after exactly one delivered
turn (agent-2 spoke once). -/
def pausedState : RelayState :=
  (run_exchange cfgCG envStopAfter1 freshState "Hello" 2).1

/-- Resuming the paused run on a fresh engine instance via
`get_state`/`load_state`/`continue_conversation`. -/
def resumedState : RelayState :=
  (continue_conversation cfgCG envClean
    (load_state (get_state pausedState) freshState) 1).1

/-- The same conversation never stopped. -/
def unstoppedState : RelayState :=
  (run_exchange cfgCG envClean freshState "Hello" 2).1

/-- The document content of the C5 scenario: a 5-character paragraph, a
blank line, and a 75-character paragraph. -/
def docC5content : String :=
  "short\n\nThis is a sufficiently long paragraph that exceeds fifty characters easily."

/-- A context diary holding that document as the active version of
`"doc1"`. -/
def dbC5 : CtxDB := ⟨[⟨1, "doc1", "shared", "Notes", docC5content, 1, true⟩], 2⟩

/-- Empty context diary. -/
def dbDoc0 : CtxDB := ⟨[], 1⟩

/-- After storing document `"doc"` once. -/
def dbDoc1 : CtxDB := storeDB "T1" "C1" "shared" (some "doc") "m1" dbDoc0

/-- After storing document `"doc"` a second time. -/
def dbDoc2 : CtxDB := storeDB "T2" "C2" "shared" (some "doc") "m2" dbDoc1

end ConstellationRelay

namespace ConstellationRelay

/-! ## C10: archive_conversation with an empty transcript is a no-op -/

/-- C10: calling `archive_conversation` with an empty transcript list
returns before opening any store connection, so all previously archived
`reference_conversations` and `reference_messages` rows are left
unchanged. -/
theorem C10_empty_archive_noop (conversation_id : String)
    (participants : List String) (title : Option String) (db : RefDB) :
    archive_conversation conversation_id [] participants title db = db := rfl

/-! ## C5: digest_context_to_memory on the two-paragraph document -/

/-- C5 (code bug): on the document `"short\n\n<75-char paragraph>"` with
`chunk_size = 500`, `digest_context_to_memory` does not record one memory
and return 1 as claimed; the greedy packer puts BOTH paragraphs into a
single 82-character chunk (5 + 75 ≤ 500, so the first paragraph is never
discarded), that chunk survives the 50-character floor, and the recording
call then raises `NameError` because `store_memory` is not defined
anywhere in the repository (the module's insert function is named
`remember`), so nothing is recorded. -/
theorem C5_digest_name_error :
    digest_context_to_memory dbC5 "doc1" 500 =
      Except.error "NameError: name 'store_memory' is not defined" ∧
    digestChunks docC5content 500 = [docC5content] ∧
    containsSub "short" docC5content = true := ⟨rfl, rfl, rfl⟩

/-! ## C4: the extraction heuristic's importance/valence policy -/

/-- C4 counterexample: a message containing both an importance keyword
(`"remember"`, `"important"`) and a project keyword (`"project"`) is
stored with importance 0.7, not the claimed 0.8 — the second `if` in
`extract_and_store_memories` overwrites the first, so the project-keyword
check wins, contradicting the claimed `else` chaining. -/
theorem C4_importance_counterexample :
    containsAnyKeyword "We should remember this important project"
      importanceKeywords = true ∧
    (extract_and_store_memories
        [⟨"t", "Claude", "We should remember this important project"⟩] "c1").map
      (fun m => m.importance) = [7/10] ∧
    (7/10 : ℚ) ≠ 8/10 := by
  refine ⟨rfl, rfl, by norm_num⟩

/-- The importance policy as amended: the project-keyword check runs last
and therefore wins when both keyword sets match; otherwise the importance
keyword set gives 0.8, else 0.5. -/
def specImportance (content : String) : ℚ :=
  if containsAnyKeyword content projectKeywords then 7/10
  else if containsAnyKeyword content importanceKeywords then 8/10
  else 5/10

/-- The valence policy exactly as the claim states it (positive checked
first and winning when both sets match). -/
def specValence (content : String) : ℚ :=
  if containsAnyKeyword content positiveKeywords then 8/10
  else if containsAnyKeyword content negativeKeywords then -(3/10)
  else 0

theorem messageImportance_eq_spec (c : String) :
    messageImportance c = specImportance c := by
  unfold messageImportance specImportance
  cases h1 : containsAnyKeyword c importanceKeywords <;>
    cases h2 : containsAnyKeyword c projectKeywords <;> simp [h1, h2]

/-- C4 as amended: for every transcript message,
`extract_and_store_memories` stores exactly one memory whose importance is
0.7 if the lowercased content contains a project keyword (this overriding
check wins when both keyword sets match), else 0.8 if it contains an
importance keyword, else 0.5; whose valence is 0.8 if a positive keyword
is present (positive wins over negative), -0.3 if only a negative keyword
is present, else 0.0; and whose stored content is the message content
truncated to its first 2000 characters. -/
theorem C4_extraction_policy (transcript : List TranscriptEntry) (cid : String) :
    (extract_and_store_memories transcript cid).length = transcript.length ∧
    ∀ i : Nat, (extract_and_store_memories transcript cid)[i]? =
      (transcript[i]?).map (fun msg =>
        { content := truncate2000 msg.content
          speaker := msg.speaker
          memory_type := "episodic"
          importance := specImportance msg.content
          emotional_valence := specValence msg.content
          conversation_id := cid }) := by
  constructor
  · simp [extract_and_store_memories]
  · intro i
    unfold extract_and_store_memories
    rw [List.getElem?_map]
    cases transcript[i]? with
    | none => rfl
    | some msg =>
      simp [messageImportance_eq_spec, messageValence, specValence]

/-! ## C1: the lockstep shape of the two agent-local histories -/

/-- C1 counterexample: immediately after the kickoff message is seeded
(reached here as the final state of a run stopped before its first turn),
`ai1_messages` is empty while `ai2_messages` holds the kickoff entry — the
two histories do NOT have equal length at that point, because
`run_exchange` appends the kickoff only to agent-2's history, outside
`add_message`. -/
theorem C1_kickoff_length_counterexample :
    (run_exchange cfgCG envStopNow freshState "Hello" 3).1.ai1_messages.length = 0 ∧
    (run_exchange cfgCG envStopNow freshState "Hello" 3).1.ai2_messages.length = 1 := by
  decide

/-- The role-swapped mirror relation between one entry of each agent-local
history: equal content, one side `"assistant"`, the other `"user"`. -/
def swapRel (m1 m2 : ChatMessage) : Prop :=
  m1.content = m2.content ∧
  ((m1.role = "assistant" ∧ m2.role = "user") ∨
   (m1.role = "user" ∧ m2.role = "assistant"))

theorem addMessage_lockstep (cfg : RelayConfig) (t role content speaker : String)
    (s : RelayState) (kick : ChatMessage)
    (h1 : s.ai2_messages.head? = some kick)
    (h2 : List.Forall₂ swapRel s.ai1_messages s.ai2_messages.tail) :
    (addMessage cfg t role content speaker s).ai2_messages.head? = some kick ∧
    List.Forall₂ swapRel (addMessage cfg t role content speaker s).ai1_messages
      (addMessage cfg t role content speaker s).ai2_messages.tail := by
  obtain ⟨m0, ms, hm⟩ : ∃ m0 ms, s.ai2_messages = m0 :: ms := by
    cases hc : s.ai2_messages with
    | nil => rw [hc] at h1; simp at h1
    | cons a l => exact ⟨a, l, rfl⟩
  rw [hm] at h1 h2
  simp only [List.head?_cons, Option.some.injEq] at h1
  simp only [List.tail_cons] at h2
  unfold addMessage
  by_cases hsp : (speaker == cfg.ai1_name) = true <;>
    simp only [hsp, if_true, if_false, Bool.false_eq_true, hm] <;>
    constructor
  · simp [h1]
  · show List.Forall₂ swapRel (s.ai1_messages ++ [⟨"assistant", content⟩])
      ((m0 :: (ms ++ [⟨"user", content⟩])).tail)
    simp only [List.tail_cons]
    exact List.rel_append h2 (by simp [swapRel])
  · simp [h1]
  · show List.Forall₂ swapRel (s.ai1_messages ++ [⟨"user", content⟩])
      ((m0 :: (ms ++ [⟨"assistant", content⟩])).tail)
    simp only [List.tail_cons]
    exact List.rel_append h2 (by simp [swapRel])

theorem runLoop_lockstep (cfg : RelayConfig) (env : RelayEnv) (kick : ChatMessage) :
    ∀ (fuel i speaker : Nat) (s : RelayState),
      s.ai2_messages.head? = some kick →
      List.Forall₂ swapRel s.ai1_messages s.ai2_messages.tail →
      (runLoop cfg env fuel i speaker s).1.ai2_messages.head? = some kick ∧
      List.Forall₂ swapRel (runLoop cfg env fuel i speaker s).1.ai1_messages
        (runLoop cfg env fuel i speaker s).1.ai2_messages.tail := by
  intro fuel
  induction fuel with
  | zero => intro i speaker s h1 h2; exact ⟨h1, h2⟩
  | succ fuel ih =>
    intro i speaker s h1 h2
    rw [runLoop]
    by_cases hstop : env.checkStop i = true
    · simp only [hstop, if_true]; exact ⟨h1, h2⟩
    · rw [Bool.not_eq_true] at hstop
      simp only [hstop, Bool.false_eq_true, if_false]
      cases hc : callFor env speaker s with
      | error e => exact ⟨h1, h2⟩
      | ok response =>
        by_cases hm : containsMarker response = true
        · simp only [hm, if_true]
          exact addMessage_lockstep cfg _ _ _ _ { s with naturally_ended := true }
            kick h1 h2
        · rw [Bool.not_eq_true] at hm
          simp only [hm, Bool.false_eq_true, if_false]
          have step := addMessage_lockstep cfg (env.time s.transcript.length)
            "assistant" response (speakerNameOf cfg speaker) s kick h1 h2
          exact ih (i + 1) (nextSpeakerOf speaker) _ step.1 step.2

/-- C1 as amended: at every point of a `run_exchange` run (every reachable
state is the final state of the run under some environment, since
`check_stop` may fire at any iteration), agent-2's history has exactly ONE
more entry than agent-1's — the kickoff, seeded as a `user` entry at its
head — and apart from it the histories are in lockstep: entry `i` of
`ai1_messages` and entry `i+1` of `ai2_messages` have equal content and
swapped roles (assistant in the speaker's own history, user in the
partner's). -/
theorem C1_lockstep_shifted (cfg : RelayConfig) (env : RelayEnv) (s0 : RelayState)
    (kickoff : String) (n : Nat) :
    (run_exchange cfg env s0 kickoff n).1.ai2_messages.length =
      (run_exchange cfg env s0 kickoff n).1.ai1_messages.length + 1 ∧
    (run_exchange cfg env s0 kickoff n).1.ai2_messages.head? =
      some ⟨"user", kickoff⟩ ∧
    List.Forall₂ swapRel (run_exchange cfg env s0 kickoff n).1.ai1_messages
      (run_exchange cfg env s0 kickoff n).1.ai2_messages.tail := by
  have base := runLoop_lockstep cfg env ⟨"user", kickoff⟩ (n * 2) 0 2
    { s0 with running := true, naturally_ended := false,
              transcript := [⟨env.time 0, "System",
                "Conversation started with: " ++ kickoff⟩],
              ai1_messages := [], ai2_messages := [⟨"user", kickoff⟩] }
    rfl (by simp)
  have hrw : (run_exchange cfg env s0 kickoff n).1.ai1_messages =
      (runLoop cfg env (n * 2) 0 2
        { s0 with running := true, naturally_ended := false,
                  transcript := [⟨env.time 0, "System",
                    "Conversation started with: " ++ kickoff⟩],
                  ai1_messages := [], ai2_messages := [⟨"user", kickoff⟩] }).1.ai1_messages ∧
      (run_exchange cfg env s0 kickoff n).1.ai2_messages =
      (runLoop cfg env (n * 2) 0 2
        { s0 with running := true, naturally_ended := false,
                  transcript := [⟨env.time 0, "System",
                    "Conversation started with: " ++ kickoff⟩],
                  ai1_messages := [], ai2_messages := [⟨"user", kickoff⟩] }).1.ai2_messages := by
    constructor <;> rfl
  rw [hrw.1, hrw.2]
  refine ⟨?_, base.1, base.2⟩
  obtain ⟨m0, ms, hm⟩ : ∃ m0 ms,
      (runLoop cfg env (n * 2) 0 2
        { s0 with running := true, naturally_ended := false,
                  transcript := [⟨env.time 0, "System",
                    "Conversation started with: " ++ kickoff⟩],
                  ai1_messages := [], ai2_messages := [⟨"user", kickoff⟩] }).1.ai2_messages =
        m0 :: ms := by
    cases hc : (runLoop cfg env (n * 2) 0 2 _).1.ai2_messages with
    | nil => rw [hc] at base; simp at base
    | cons a l => exact ⟨a, l, rfl⟩
  rw [hm]
  have hlen := base.2.length_eq
  rw [hm] at hlen
  simp only [List.tail_cons] at hlen
  simp [hlen]

/-! ## C9: the provider gateway retry policy -/

theorem retryCallAux_skip_limited (attempts : Nat → Except PyError String) :
    ∀ (k fuel i : Nat), k + 1 ≤ fuel →
      (∀ j < k, ∃ ej, attempts (i + j) = Except.error ej ∧
        is_rate_limit_error ej = true) →
      retryCallAux attempts fuel i = retryCallAux attempts (fuel - k) (i + k) := by
  intro k
  induction k with
  | zero => intro fuel i _ _; simp
  | succ k ih =>
    intro fuel i hf hpre
    obtain ⟨m, hm⟩ : ∃ m, fuel = m + 2 := ⟨fuel - 2, by omega⟩
    subst hm
    obtain ⟨e0, he0, hr0⟩ := hpre 0 (by omega)
    simp only [Nat.add_zero] at he0
    have step : retryCallAux attempts (m + 2) i = retryCallAux attempts (m + 1) (i + 1) := by
      rw [retryCallAux, he0]
      simp [hr0]
    rw [step, ih (m + 1) (i + 1) (by omega)
      (fun j hj => by
        obtain ⟨ej, hej, hrj⟩ := hpre (j + 1) (by omega)
        exact ⟨ej, by rw [← hej]; ring_nf, hrj⟩)]
    congr 1 <;> omega

/-- C9: for every provider call (`call_claude`, `call_grok`,
`call_pascal`, which share the same tenacity decorator), a raised error is
retried only when `is_rate_limit_error` classifies it as rate limiting
(status code 429, or its message containing 429, RATELIMIT_EXCEEDED,
quota, or rate-limit markers); at most 5 attempts are made in total, after
which the last error is re-raised; a non-classified error propagates
immediately with no retry. Conjunct 1: after `k` rate-limited failures
(`k < 5`), a non-classified error at attempt `k` propagates as the result.
Conjunct 2: after four rate-limited failures, the fifth attempt's error is
re-raised whatever its class. Conjunct 3: after `k` rate-limited failures
(`k < 5`), a success at attempt `k` is returned. -/
theorem C9_retry_policy (attempts : Nat → Except PyError String) (e : PyError)
    (r : String) (k : Nat) :
    ((∀ j < k, ∃ ej, attempts j = Except.error ej ∧ is_rate_limit_error ej = true) →
      k < 5 → attempts k = Except.error e → is_rate_limit_error e = false →
      retryCall attempts = Except.error e) ∧
    ((∀ j < 4, ∃ ej, attempts j = Except.error ej ∧ is_rate_limit_error ej = true) →
      attempts 4 = Except.error e → retryCall attempts = Except.error e) ∧
    ((∀ j < k, ∃ ej, attempts j = Except.error ej ∧ is_rate_limit_error ej = true) →
      k < 5 → attempts k = Except.ok r → retryCall attempts = Except.ok r) := by
  refine ⟨?_, ?_, ?_⟩
  · intro hpre hk he hcls
    unfold retryCall
    rw [retryCallAux_skip_limited attempts k 5 0 (by omega) (fun j hj => by simpa using hpre j hj)]
    simp only [Nat.zero_add]
    obtain ⟨m, hm⟩ : ∃ m, 5 - k = m + 1 := ⟨5 - k - 1, by omega⟩
    rw [hm]
    cases m with
    | zero => rw [retryCallAux, he]
    | succ m => rw [retryCallAux, he]; simp [hcls]
  · intro hpre he
    unfold retryCall
    rw [retryCallAux_skip_limited attempts 4 5 0 (by omega) (fun j hj => by simpa using hpre j hj)]
    simpa [retryCallAux] using he
  · intro hpre hk he
    unfold retryCall
    rw [retryCallAux_skip_limited attempts k 5 0 (by omega) (fun j hj => by simpa using hpre j hj)]
    simp only [Nat.zero_add]
    obtain ⟨m, hm⟩ : ∃ m, 5 - k = m + 1 := ⟨5 - k - 1, by omega⟩
    rw [hm]
    cases m with
    | zero => rw [retryCallAux, he]
    | succ m => rw [retryCallAux, he]

/-- C9 witness: a call that is rate-limited once (HTTP 429 message) and
then succeeds returns the success. -/
theorem C9_retry_witness :
    retryCall (fun i => if i == 0 then Except.error ⟨"HTTP 429 Too Many Requests", none⟩
                        else Except.ok "done") = Except.ok "done" :=
  (C9_retry_policy
      (fun i => if i == 0 then Except.error ⟨"HTTP 429 Too Many Requests", none⟩
                else Except.ok "done")
      ⟨"", none⟩ "done" 1).2.2
    (fun j hj => by
      interval_cases j
      exact ⟨⟨"HTTP 429 Too Many Requests", none⟩, rfl, by decide⟩)
    (by omega) rfl

/-! ## Helper lemmas about the shared relay loop -/

theorem addMessage_extends (cfg : RelayConfig) (t role content speaker : String)
    (s : RelayState) :
    (addMessage cfg t role content speaker s).transcript =
      s.transcript ++ [⟨t, speaker, content⟩] ∧
    (∃ x, (addMessage cfg t role content speaker s).ai1_messages =
      s.ai1_messages ++ [x]) ∧
    (∃ y, (addMessage cfg t role content speaker s).ai2_messages =
      s.ai2_messages ++ [y]) := by
  unfold addMessage
  by_cases hsp : (speaker == cfg.ai1_name) = true <;>
    simp [hsp]

/-- The loop only appends to the transcript and to the two histories. -/
theorem runLoop_extends (cfg : RelayConfig) (env : RelayEnv) :
    ∀ (fuel i speaker : Nat) (s : RelayState),
      ∃ ts e1 e2,
        (runLoop cfg env fuel i speaker s).1.transcript = s.transcript ++ ts ∧
        (runLoop cfg env fuel i speaker s).1.ai1_messages = s.ai1_messages ++ e1 ∧
        (runLoop cfg env fuel i speaker s).1.ai2_messages = s.ai2_messages ++ e2 := by
  intro fuel
  induction fuel with
  | zero => intro i speaker s; exact ⟨[], [], [], by simp [runLoop], by simp [runLoop], by simp [runLoop]⟩
  | succ fuel ih =>
    intro i speaker s
    rw [runLoop]
    by_cases hstop : env.checkStop i = true
    · simp [hstop]
    · rw [Bool.not_eq_true] at hstop
      simp only [hstop, Bool.false_eq_true, if_false]
      cases hc : callFor env speaker s with
      | error e => simp
      | ok response =>
        by_cases hm : containsMarker response = true
        · simp only [hm, if_true]
          obtain ⟨h1, ⟨x, h2⟩, ⟨y, h3⟩⟩ := addMessage_extends cfg
            (env.time s.transcript.length) "assistant" (stripMarker response)
            (speakerNameOf cfg speaker) { s with naturally_ended := true }
          exact ⟨_, _, _, h1, h2, h3⟩
        · rw [Bool.not_eq_true] at hm
          simp only [hm, Bool.false_eq_true, if_false]
          obtain ⟨h1, ⟨x, h2⟩, ⟨y, h3⟩⟩ := addMessage_extends cfg
            (env.time s.transcript.length) "assistant" response
            (speakerNameOf cfg speaker) s
          obtain ⟨ts, e1, e2, g1, g2, g3⟩ := ih (i + 1) (nextSpeakerOf speaker)
            (addMessage cfg (env.time s.transcript.length) "assistant" response
              (speakerNameOf cfg speaker) s)
          refine ⟨⟨env.time s.transcript.length, speakerNameOf cfg speaker, response⟩ :: ts,
            x :: e1, y :: e2, ?_, ?_, ?_⟩
      <;> simp [g1, g2, g3, h1, h2, h3]

/-! ## C6: the natural-end marker ends the run immediately -/

/-- C6: in any turn of the shared loop run by `run_exchange` and
`continue_conversation`, if the current speaker's reply `r` contains the
end-marker token, then (whatever exchange budget `fuel` remains) the loop
result is exactly: the reply with every marker occurrence removed and
whitespace-stripped (`stripMarker r`) appended to the transcript and both
histories via `add_message` with the `naturally_ended` flag set, that
stripped reply emitted via `on_message` followed by the System conclusion
notice, and no further turns — the result does not depend on `fuel`. -/
theorem C6_end_marker_stops (cfg : RelayConfig) (env : RelayEnv)
    (fuel i speaker : Nat) (s : RelayState) (r : String)
    (hstop : env.checkStop i = false)
    (hcall : callFor env speaker s = Except.ok r)
    (hmark : containsMarker r = true) :
    runLoop cfg env (fuel + 1) i speaker s =
      (addMessage cfg (env.time s.transcript.length) "assistant" (stripMarker r)
         (speakerNameOf cfg speaker) { s with naturally_ended := true },
       [(speakerNameOf cfg speaker, stripMarker r),
        ("System", speakerNameOf cfg speaker ++
          " has concluded the conversation naturally.")]) := by
  rw [runLoop, hstop, hcall]
  simp [hmark]

/-- C6 witness: with agent-2 replying `"Goodbye! [END CONVERSATION]"` and
four loop iterations of budget left, the loop stops after that single turn
with the marker stripped from the stored and emitted content and the
naturally-ended flag set. -/
theorem C6_end_marker_witness :
    runLoop cfgCG envMark 4 0 2 freshState =
      (⟨"sys1", "sys2", [⟨"user", "Goodbye!"⟩], [⟨"assistant", "Goodbye!"⟩],
        [⟨"t", "Grok", "Goodbye!"⟩], false, true⟩,
       [("Grok", "Goodbye!"),
        ("System", "Grok has concluded the conversation naturally.")]) := by
  rw [C6_end_marker_stops cfgCG envMark 3 0 2 freshState
    "Goodbye! [END CONVERSATION]" rfl rfl (by decide)]
  decide

/-- One clean loop step: no stop, a successful reply without the
end marker appends it and continues with the other speaker. -/
theorem runLoop_step_ok (cfg : RelayConfig) (env : RelayEnv)
    (fuel i speaker : Nat) (s : RelayState) (r : String)
    (hstop : env.checkStop i = false)
    (hcall : callFor env speaker s = Except.ok r)
    (hmark : containsMarker r = false) :
    runLoop cfg env (fuel + 1) i speaker s =
      ((runLoop cfg env fuel (i + 1) (nextSpeakerOf speaker)
          (addMessage cfg (env.time s.transcript.length) "assistant" r
            (speakerNameOf cfg speaker) s)).1,
       (speakerNameOf cfg speaker, r) ::
        (runLoop cfg env fuel (i + 1) (nextSpeakerOf speaker)
          (addMessage cfg (env.time s.transcript.length) "assistant" r
            (speakerNameOf cfg speaker) s)).2) := by
  rw [runLoop, hstop, hcall]
  simp [hmark]

/-! ## C7: continue_conversation's next-speaker parity and no re-seeding -/

/-- C7: `continue_conversation` chooses the continuation's first speaker
solely from the parity of the non-System transcript entry count — even
count ⇒ agent-1, odd count ⇒ agent-2 — and does not re-seed the kickoff:
the first provider call receives exactly the saved agent-local history of
the chosen speaker (hypothesis `hcall`), the new transcript is the old one
extended by the chosen agent's reply, and both histories are only ever
appended to. -/
theorem C7_resume_parity (cfg : RelayConfig) (env : RelayEnv) (s0 : RelayState)
    (n : Nat) (r : String)
    (hn : 0 < n)
    (hstop : env.checkStop 0 = false)
    (hcall : (if (nonSystemEntries s0.transcript).length % 2 == 0
              then env.call1 s0.ai1_messages s0.ai1_system
              else env.call2 s0.ai2_messages s0.ai2_system) = Except.ok r)
    (hmark : containsMarker r = false) :
    ∃ rest e1 e2,
      (continue_conversation cfg env s0 n).1.transcript =
        s0.transcript ++
          (⟨env.time s0.transcript.length,
            (if (nonSystemEntries s0.transcript).length % 2 == 0
             then cfg.ai1_name else cfg.ai2_name), r⟩ : TranscriptEntry) :: rest ∧
      (continue_conversation cfg env s0 n).1.ai1_messages = s0.ai1_messages ++ e1 ∧
      (continue_conversation cfg env s0 n).1.ai2_messages = s0.ai2_messages ++ e2 := by
  obtain ⟨m, hm⟩ : ∃ m, n * 2 = m + 1 := ⟨n * 2 - 1, by omega⟩
  simp only [continue_conversation, hm]
  cases hb : ((nonSystemEntries s0.transcript).length % 2 == 0) with
  | true =>
    rw [hb] at hcall
    simp only [hb, if_true]
    have hcf : callFor env 1 { s0 with running := true, naturally_ended := false } =
        Except.ok r := hcall
    rw [runLoop_step_ok cfg env m 0 1 _ r hstop hcf hmark]
    obtain ⟨ts, e1, e2, g1, g2, g3⟩ := runLoop_extends cfg env m 1 (nextSpeakerOf 1)
      (addMessage cfg (env.time s0.transcript.length) "assistant" r
        (speakerNameOf cfg 1) { s0 with running := true, naturally_ended := false })
    obtain ⟨h1, ⟨x, h2⟩, ⟨y, h3⟩⟩ := addMessage_extends cfg
      (env.time s0.transcript.length) "assistant" r (speakerNameOf cfg 1)
      { s0 with running := true, naturally_ended := false }
    refine ⟨ts, x :: e1, y :: e2, ?_, ?_, ?_⟩ <;>
      simp_all [speakerNameOf, nextSpeakerOf]
  | false =>
    rw [hb] at hcall
    simp only [hb, Bool.false_eq_true, if_false]
    have hcf : callFor env 2 { s0 with running := true, naturally_ended := false } =
        Except.ok r := hcall
    rw [runLoop_step_ok cfg env m 0 2 _ r hstop hcf hmark]
    obtain ⟨ts, e1, e2, g1, g2, g3⟩ := runLoop_extends cfg env m 1 (nextSpeakerOf 2)
      (addMessage cfg (env.time s0.transcript.length) "assistant" r
        (speakerNameOf cfg 2) { s0 with running := true, naturally_ended := false })
    obtain ⟨h1, ⟨x, h2⟩, ⟨y, h3⟩⟩ := addMessage_extends cfg
      (env.time s0.transcript.length) "assistant" r (speakerNameOf cfg 2)
      { s0 with running := true, naturally_ended := false }
    refine ⟨ts, x :: e1, y :: e2, ?_, ?_, ?_⟩ <;>
      simp_all [speakerNameOf, nextSpeakerOf]

/-- C7 witness: from a state holding one delivered agent-2 ("Grok") turn
(odd non-System count) the continuation's first reply is Grok's, appended
to the unmodified saved transcript and histories. -/
theorem C7_resume_parity_witness :
    ∃ rest e1 e2,
      (continue_conversation cfgCG envClean s0Odd 1).1.transcript =
        s0Odd.transcript ++
          (⟨"t", "Grok", "beta"⟩ : TranscriptEntry) :: rest ∧
      (continue_conversation cfgCG envClean s0Odd 1).1.ai1_messages =
        s0Odd.ai1_messages ++ e1 ∧
      (continue_conversation cfgCG envClean s0Odd 1).1.ai2_messages =
        s0Odd.ai2_messages ++ e2 :=
  C7_resume_parity cfgCG envClean s0Odd 1 "beta" (by omega) rfl rfl rfl

/-! ## C2: shape of a full run with no stop, no error, no natural end -/

/-- The strictly alternating list of `n` speaker names starting with
`a`. -/
def altPattern : Nat → String → String → List String
  | 0, _, _ => []
  | n + 1, a, b => a :: altPattern n b a

theorem altPattern_length : ∀ (n : Nat) (a b : String),
    (altPattern n a b).length = n := by
  intro n
  induction n with
  | zero => intro a b; rfl
  | succ n ih => intro a b; simp [altPattern, ih]

theorem altPattern_filter_ne : ∀ (n : Nat) (a b c : String), a ≠ c → b ≠ c →
    (altPattern n a b).filter (fun x => x != c) = altPattern n a b := by
  intro n
  induction n with
  | zero => intro a b c _ _; rfl
  | succ n ih =>
    intro a b c ha hb
    simp only [altPattern, List.filter_cons]
    rw [if_pos (by simpa using ha), ih b a c hb ha]

theorem nonSystem_map_speaker : ∀ ts : List TranscriptEntry,
    (nonSystemEntries ts).map (fun t => t.speaker) =
      (ts.map (fun t => t.speaker)).filter (fun x => x != "System") := by
  intro ts
  induction ts with
  | nil => rfl
  | cons t ts ih =>
    simp only [nonSystemEntries, List.filter_cons, List.map_cons] at *
    cases h : (t.speaker != "System") <;> simp [h, ih]

theorem speakerNameOf_next_next (cfg : RelayConfig) (speaker : Nat) :
    speakerNameOf cfg (nextSpeakerOf (nextSpeakerOf speaker)) =
      speakerNameOf cfg speaker := by
  by_cases h : (speaker == 2) = true <;>
    simp [speakerNameOf, nextSpeakerOf, h]

/-- In an environment with no stop request, no provider failure and no
marker-bearing reply, the loop appends exactly `fuel` entries whose
speakers strictly alternate starting with the current speaker. -/
theorem runLoop_clean_speakers (cfg : RelayConfig) (env : RelayEnv)
    (hstop : ∀ i, env.checkStop i = false)
    (h1 : ∀ ms sys, ∃ r, env.call1 ms sys = Except.ok r ∧ containsMarker r = false)
    (h2 : ∀ ms sys, ∃ r, env.call2 ms sys = Except.ok r ∧ containsMarker r = false) :
    ∀ (fuel i speaker : Nat) (s : RelayState),
      ((runLoop cfg env fuel i speaker s).1.transcript).map (fun t => t.speaker) =
        s.transcript.map (fun t => t.speaker) ++
          altPattern fuel (speakerNameOf cfg speaker)
            (speakerNameOf cfg (nextSpeakerOf speaker)) := by
  intro fuel
  induction fuel with
  | zero => intro i speaker s; simp [runLoop, altPattern]
  | succ fuel ih =>
    intro i speaker s
    obtain ⟨r, hr, hm⟩ :
        ∃ r, callFor env speaker s = Except.ok r ∧ containsMarker r = false := by
      unfold callFor
      by_cases hsp : (speaker == 2) = true
      · simpa [hsp] using h2 s.ai2_messages s.ai2_system
      · simpa [hsp] using h1 s.ai1_messages s.ai1_system
    rw [runLoop_step_ok cfg env fuel i speaker s r (hstop i) hr hm]
    rw [ih (i + 1) (nextSpeakerOf speaker)
      (addMessage cfg (env.time s.transcript.length) "assistant" r
        (speakerNameOf cfg speaker) s)]
    have htr : (addMessage cfg (env.time s.transcript.length) "assistant" r
        (speakerNameOf cfg speaker) s).transcript =
        s.transcript ++ [⟨env.time s.transcript.length, speakerNameOf cfg speaker, r⟩] :=
      (addMessage_extends cfg _ _ _ _ s).1
    rw [htr, speakerNameOf_next_next]
    simp [altPattern]

/-- C2: for every `run_exchange` with `max_exchanges = N` in which
`check_stop` never fires, every provider call succeeds, no reply contains
the end marker, and neither agent is named "System", the resulting
transcript's non-System entries are exactly the strictly alternating
sequence of `2 * N` agent turns beginning with agent-2 (and hence number
exactly `2 * N`). -/
theorem C2_full_run_shape (cfg : RelayConfig) (env : RelayEnv) (s0 : RelayState)
    (kickoff : String) (N : Nat)
    (hstop : ∀ i, env.checkStop i = false)
    (h1 : ∀ ms sys, ∃ r, env.call1 ms sys = Except.ok r ∧ containsMarker r = false)
    (h2 : ∀ ms sys, ∃ r, env.call2 ms sys = Except.ok r ∧ containsMarker r = false)
    (hn1 : cfg.ai1_name ≠ "System") (hn2 : cfg.ai2_name ≠ "System") :
    (nonSystemEntries (run_exchange cfg env s0 kickoff N).1.transcript).map
        (fun t => t.speaker) = altPattern (2 * N) cfg.ai2_name cfg.ai1_name ∧
    (nonSystemEntries (run_exchange cfg env s0 kickoff N).1.transcript).length =
      2 * N := by
  have hbody : (run_exchange cfg env s0 kickoff N).1.transcript =
      (runLoop cfg env (N * 2) 0 2
        { s0 with running := true, naturally_ended := false,
                  transcript := [⟨env.time 0, "System",
                    "Conversation started with: " ++ kickoff⟩],
                  ai1_messages := [], ai2_messages := [⟨"user", kickoff⟩] }).1.transcript :=
    rfl
  have hmap := runLoop_clean_speakers cfg env hstop h1 h2 (N * 2) 0 2
    { s0 with running := true, naturally_ended := false,
              transcript := [⟨env.time 0, "System",
                "Conversation started with: " ++ kickoff⟩],
              ai1_messages := [], ai2_messages := [⟨"user", kickoff⟩] }
  have hname2 : speakerNameOf cfg 2 = cfg.ai2_name := rfl
  have hname1 : speakerNameOf cfg (nextSpeakerOf 2) = cfg.ai1_name := rfl
  rw [hname1, hname2] at hmap
  have hfil : (nonSystemEntries (run_exchange cfg env s0 kickoff N).1.transcript).map
      (fun t => t.speaker) = altPattern (2 * N) cfg.ai2_name cfg.ai1_name := by
    rw [nonSystem_map_speaker, hbody, hmap]
    simp only [List.map_cons, List.map_nil, List.filter_append]
    rw [show ((List.filter (fun x => x != "System")
        [(⟨env.time 0, "System", "Conversation started with: " ++ kickoff⟩ :
          TranscriptEntry).speaker])) = [] from by simp]
    rw [altPattern_filter_ne (N * 2) cfg.ai2_name cfg.ai1_name "System" hn2 hn1]
    rw [Nat.mul_comm N 2]
    simp
  refine ⟨hfil, ?_⟩
  have := congrArg List.length hfil
  simpa [altPattern_length] using this

/-- C2 witness: one exchange with always-succeeding providers yields the
two alternating turns Grok, Claude. -/
theorem C2_full_run_witness :
    (nonSystemEntries (run_exchange cfgCG envClean freshState "Hello" 1).1.transcript).map
        (fun t => t.speaker) = altPattern (2 * 1) cfgCG.ai2_name cfgCG.ai1_name ∧
    (nonSystemEntries (run_exchange cfgCG envClean freshState "Hello" 1).1.transcript).length =
      2 * 1 :=
  C2_full_run_shape cfgCG envClean freshState "Hello" 1 (fun _ => rfl)
    (fun _ _ => ⟨"alpha", rfl, rfl⟩) (fun _ _ => ⟨"beta", rfl, rfl⟩)
    (by decide) (by decide)

/-! ## C3: checkpoint/resume does not pick the same next speaker -/

/-- C3 (code bug): a run paused after exactly one turn (agent-2, "Grok",
spoke once), checkpointed with `get_state`, restored with `load_state` on
a fresh engine and resumed with `continue_conversation`, has Grok speak
AGAIN (the odd non-System count selects agent-2), whereas the never
stopped run's second turn is Claude's. The parity in
`continue_conversation` (even count ⇒ agent-1) is inverted relative to
`run_exchange`'s alternation, which starts with agent-2. -/
theorem C3_resume_wrong_speaker :
    ((nonSystemEntries resumedState.transcript).map (fun t => t.speaker)).take 2 =
      ["Grok", "Grok"] ∧
    ((nonSystemEntries unstoppedState.transcript).map (fun t => t.speaker)).take 2 =
      ["Grok", "Claude"] := by
  decide

/-! ## C8: versioned context-document stores -/

theorem deactivateFor_document_id (d : String) (r : CtxRow) :
    (deactivateFor d r).document_id = r.document_id := by
  unfold deactivateFor; split <;> rfl

theorem deactivateFor_version (d : String) (r : CtxRow) :
    (deactivateFor d r).version = r.version := by
  unfold deactivateFor; split <;> rfl

theorem pActive_deactivated (d : String) (r : CtxRow)
    (h : r.document_id = d) : pActive d (deactivateFor d r) = false := by
  simp [pActive, deactivateFor, h]

theorem pActive_false_of_ne (x : String) (r : CtxRow)
    (h : r.document_id ≠ x) : pActive x r = false := by
  simp [pActive, h]

theorem deactivateFor_of_ne (d : String) (r : CtxRow)
    (h : r.document_id ≠ d) : deactivateFor d r = r := by
  simp [deactivateFor, h]

/-- Deactivating document `d` leaves the active rows of every other
document unchanged. -/
theorem filter_pActive_map_deactivate (d x : String) (hx : x ≠ d) :
    ∀ rows : List CtxRow,
      (rows.map (deactivateFor d)).filter (pActive x) = rows.filter (pActive x) := by
  intro rows
  induction rows with
  | nil => rfl
  | cons r0 l ih =>
    simp only [List.map_cons, List.filter_cons]
    by_cases h0 : r0.document_id = d
    · have ha : pActive x (deactivateFor d r0) = false :=
        pActive_false_of_ne x _ (by rw [deactivateFor_document_id, h0]; exact Ne.symm hx)
      have hb : pActive x r0 = false :=
        pActive_false_of_ne x r0 (by rw [h0]; exact Ne.symm hx)
      simp [ha, hb, ih]
    · rw [deactivateFor_of_ne d r0 h0]
      cases h : pActive x r0 <;> simp [h, ih]

theorem maxVersion_of_no_rows (rows : List CtxRow) (d : String)
    (h : ∀ r ∈ rows, r.document_id ≠ d) : maxVersion rows d = 0 := by
  unfold maxVersion
  rw [List.filter_eq_nil_iff.mpr (fun a ha => by simp [h a ha])]
  rfl

/-- Preservation of the context-diary invariant by a store that minted a
fresh `document_id` (the `document_id is None` branch). -/
theorem ctx_store_none_inv (title content owner mint : String) (db : CtxDB)
    (hinv : CtxInv db) :
    CtxInv (storeDB title content owner none mint db) := by
  unfold storeDB store_context_document ctxInsert
  by_cases hconf :
      (db.rows.any (fun r => r.document_id == mint && r.version == 1)) = true
  · simp only [hconf, if_true]; exact hinv
  · simp only [hconf, Bool.false_eq_true, if_false]
    have hno : ∀ r0 ∈ db.rows, r0.document_id ≠ mint := by
      intro r0 hr0 hid
      obtain ⟨-, r1, hr1, hid1, hv1⟩ := hinv r0 hr0
      apply hconf
      rw [List.any_eq_true]
      exact ⟨r1, hr1, by simp [hid1, hid, hv1]⟩
    intro r hr
    simp only [List.mem_append, List.mem_singleton] at hr
    constructor
    · show ((db.rows ++ [(⟨db.nextId, mint, owner, title, content, 1, true⟩ : CtxRow)]).filter
        (pActive r.document_id)).length ≤ 1
      rw [List.filter_append, List.length_append]
      cases hr with
      | inl hmem =>
        have hne : r.document_id ≠ mint := hno r hmem
        have hz : (List.filter (pActive r.document_id)
            [(⟨db.nextId, mint, owner, title, content, 1, true⟩ : CtxRow)]).length = 0 := by
          simp [pActive, Ne.symm hne]
        rw [hz]
        simpa using (hinv r hmem).1
      | inr hnew =>
        have hz : (db.rows.filter (pActive r.document_id)).length = 0 := by
          rw [List.length_eq_zero]
          refine List.filter_eq_nil_iff.mpr (fun a ha => ?_)
          rw [pActive_false_of_ne r.document_id a (by rw [hnew]; exact hno a ha)]
          simp
        rw [hz]
        simpa using List.length_filter_le (pActive r.document_id)
          [(⟨db.nextId, mint, owner, title, content, 1, true⟩ : CtxRow)]
    · cases hr with
      | inl hmem =>
        obtain ⟨-, r1, hr1, hid1, hv1⟩ := hinv r hmem
        exact ⟨r1, by simp [List.mem_append, hr1], hid1, hv1⟩
      | inr hnew =>
        exact ⟨⟨db.nextId, mint, owner, title, content, 1, true⟩, by simp,
          by rw [hnew], rfl⟩

/-- Preservation of the context-diary invariant by a store that targets an
existing `document_id` (the deactivate-then-insert branch). -/
theorem ctx_store_some_inv (title content owner d mint : String) (db : CtxDB)
    (hinv : CtxInv db) :
    CtxInv (storeDB title content owner (some d) mint db) := by
  unfold storeDB store_context_document ctxInsert
  by_cases hconf : ((db.rows.map (deactivateFor d)).any (fun r =>
      r.document_id == d && r.version == maxVersion (db.rows.map (deactivateFor d)) d + 1)) = true
  · simp only [hconf, if_true]; exact hinv
  · simp only [hconf, Bool.false_eq_true, if_false]
    set rows1 := db.rows.map (deactivateFor d) with hrows1
    set v := maxVersion rows1 d + 1 with hv
    set newRow : CtxRow := ⟨db.nextId, d, owner, title, content, v, true⟩ with hnew
    have hin1 : ∀ r ∈ rows1, pActive d r = false := by
      intro r hr
      obtain ⟨r0, hr0, rfl⟩ := List.mem_map.mp hr
      by_cases h0 : r0.document_id = d
      · exact pActive_deactivated d r0 h0
      · exact pActive_false_of_ne d _ (by rw [deactivateFor_document_id]; exact h0)
    intro r hr
    simp only [List.mem_append, List.mem_singleton] at hr
    constructor
    · show ((rows1 ++ [newRow]).filter (pActive r.document_id)).length ≤ 1
      rw [List.filter_append, List.length_append]
      by_cases hdoc : r.document_id = d
      · have hz : (rows1.filter (pActive r.document_id)).length = 0 := by
          rw [List.length_eq_zero]
          refine List.filter_eq_nil_iff.mpr (fun a ha => ?_)
          rw [hdoc, hin1 a ha]; simp
        rw [hz]
        simpa using List.length_filter_le (pActive r.document_id) [newRow]
      · have hrmem : r ∈ rows1 := by
          cases hr with
          | inl h => exact h
          | inr h => exact absurd (by rw [h]) hdoc
        obtain ⟨r0, hr0, hr0eq⟩ := List.mem_map.mp hrmem
        have hdocs : r.document_id = r0.document_id := by
          rw [← hr0eq, deactivateFor_document_id]
        have hz : (List.filter (pActive r.document_id) [newRow]).length = 0 := by
          simp [pActive, newRow, Ne.symm hdoc]
        rw [hz, Nat.add_zero, filter_pActive_map_deactivate d r.document_id hdoc]
        rw [hdocs]
        exact (hinv r0 hr0).1
    · by_cases hdoc : r.document_id = d
      · by_cases hex : ∃ r0 ∈ db.rows, r0.document_id = d
        · obtain ⟨r0, hr0, hr0d⟩ := hex
          obtain ⟨-, r1, hr1, hid1, hv1⟩ := hinv r0 hr0
          refine ⟨deactivateFor d r1,
            List.mem_append.mpr (Or.inl (List.mem_map.mpr ⟨r1, hr1, rfl⟩)), ?_, ?_⟩
          · rw [deactivateFor_document_id, hid1, hr0d, hdoc]
          · rw [deactivateFor_version, hv1]
        · push_neg at hex
          have hv0 : maxVersion rows1 d = 0 := by
            refine maxVersion_of_no_rows rows1 d (fun a ha => ?_)
            obtain ⟨a0, ha0, rfl⟩ := List.mem_map.mp ha
            rw [deactivateFor_document_id]
            exact hex a0 ha0
          refine ⟨newRow, by simp, by rw [hdoc], ?_⟩
          rw [hv, hv0] at hnew
          rw [hnew]
      · have hrmem : r ∈ rows1 := by
          cases hr with
          | inl h => exact h
          | inr h => exact absurd (by rw [h]) hdoc
        obtain ⟨r0, hr0, hr0eq⟩ := List.mem_map.mp hrmem
        obtain ⟨-, r1, hr1, hid1, hv1⟩ := hinv r0 hr0
        refine ⟨deactivateFor d r1,
          List.mem_append.mpr (Or.inl (List.mem_map.mpr ⟨r1, hr1, rfl⟩)), ?_, ?_⟩
        · rw [deactivateFor_document_id, hid1, ← hr0eq, deactivateFor_document_id]
        · rw [deactivateFor_version, hv1]

/-- C8: storing a context document under `"doc"`, then storing again with
the same `document_id`, yields exactly two rows for that id with versions
1 and 2, only the version-2 row active, and the active-documents query for
that owner returns only version 2's content; and in general a
`store_context_document` call (with or without a given `document_id`,
committed or rolled back) preserves the invariant that each `document_id`
has at most one active row. -/
theorem C8_versioned_store :
    ((dbDoc2.rows.filter (fun r => r.document_id == "doc")).map
        (fun r => (r.version, r.is_active)) = [(1, false), (2, true)] ∧
      (get_context_documents dbDoc2 (some "shared") true).map (fun r => r.content) =
        ["C2"]) ∧
    ∀ (title content owner : String) (odoc : Option String) (mint : String)
      (db : CtxDB), CtxInv db → CtxInv (storeDB title content owner odoc mint db) := by
  refine ⟨⟨by decide, by decide⟩, ?_⟩
  intro title content owner odoc mint db hinv
  cases odoc with
  | none => exact ctx_store_none_inv title content owner mint db hinv
  | some d => exact ctx_store_some_inv title content owner d mint db hinv

/-- C8 witness: the invariant-preservation part applied to the concrete
two-version table, for a store minting a fresh id. -/
theorem C8_versioned_store_witness :
    CtxInv (storeDB "T3" "C3" "claude" none "mNew" dbDoc2) :=
  C8_versioned_store.2 "T3" "C3" "claude" none "mNew" dbDoc2 (by decide)

end ConstellationRelay
